/-
Verification of the Internship Tracker core (`src/utils.ts`) against its
specification.

Shallow embedding conventions:
* A JavaScript `Date` (always normalized to midnight by the code via
  `startOfDay`) is embedded as an `Int`: the number of calendar days since
  1970-01-01.  `addDays d 1` is `d + 1`, `differenceInDays a b` is `a - b`,
  and `startOfDay` is the identity.
* `getDay` (0 = Sunday .. 6 = Saturday) is `(d + 4) % 7` (1970-01-01 was a
  Thursday, weekday 4); `isWeekend` matches date-fns (Saturday or Sunday).
* The date keys produced by `format(date, 'yyyy-MM-dd')` are embedded as the
  civil triple (year, month, day) — the injective image of that string — so
  the adjustments map is keyed by `DateKey` instead of `String`.
  The civil ↔ day-number conversions are the standard Gregorian-calendar
  algorithms (the ones underlying date-fns' arithmetic).
* JavaScript numbers flowing through the accrual logic (goal, overtime,
  hours, accumulated) are embedded as `Int`; the only non-integer value,
  `progressPercentage = min(100, accumulated/goal*100)`, is embedded as `ℚ`
  (exact division; all other operations on it are order comparisons, which
  agree with the float semantics on these magnitudes).
* The types `DayStatus`, `PlanningMode`, `DayAdjustment`, `DayMap` are
  imported by `utils.ts` from `./types`, a file not present in the sources;
  their shapes are modelled from the spec (§3 DATA MODEL) and from their
  uses in `utils.ts`.
-/
import Mathlib

namespace InternshipTracker

/-- Modelled from the spec: per-day override status, `work` or `off`
(`DayStatus` from the missing `./types`). -/
inductive DayStatus where
  | work
  | off
deriving DecidableEq, BEq

/-- Modelled from the spec: planning mode, `manual` or `automatic`
(`PlanningMode` from the missing `./types`). -/
inductive PlanningMode where
  | automatic
  | manual
deriving DecidableEq, BEq

/-- Modelled from the spec: a manual override for one calendar day
(`DayAdjustment` from the missing `./types`): status, overtime hours,
free-text log. -/
structure DayAdjustment where
  status : DayStatus
  overtime : Int
  log : String
deriving DecidableEq, BEq

/-- A civil calendar date (year, month 1-12, day 1-31): the injective image
of the `'yyyy-MM-dd'` key string produced by `getDateKey`. -/
structure DateKey where
  year : Int
  month : Int
  day : Int
deriving DecidableEq, BEq

/-- Modelled from the spec: the adjustments map (`DayMap` from the missing
`./types`), a partial map from date keys to overrides. -/
def DayMap : Type := DateKey → Option DayAdjustment

/-- Day-of-week of a day number, per JS `getDay`: 0 = Sunday .. 6 = Saturday.
Day 0 (1970-01-01) was a Thursday. -/
def getDay (d : Int) : Int := (d + 4).emod 7

/-- date-fns `isWeekend`: Saturday or Sunday. -/
def isWeekend (d : Int) : Bool := getDay d == 0 || getDay d == 6

/-- Civil date of a day number (days since 1970-01-01), standard Gregorian
calendar conversion. -/
def civilFromDays (z : Int) : DateKey :=
  let z' := z + 719468
  let era := z'.fdiv 146097
  let doe := z' - era * 146097
  let yoe := (doe - doe / 1460 + doe / 36524 - doe / 146096) / 365
  let y := yoe + era * 400
  let doy := doe - (365 * yoe + yoe / 4 - yoe / 100)
  let mp := (5 * doy + 2) / 153
  let dd := doy - (153 * mp + 2) / 5 + 1
  let m := if mp < 10 then mp + 3 else mp - 9
  ⟨if m ≤ 2 then y + 1 else y, m, dd⟩

/-- Day number (days since 1970-01-01) of a civil date, standard Gregorian
calendar conversion; inverse of `civilFromDays`. -/
def civilToDays (y m d : Int) : Int :=
  let y' := if m ≤ 2 then y - 1 else y
  let era := y'.fdiv 400
  let yoe := y' - era * 400
  let doy := (153 * (if 2 < m then m - 3 else m + 9) + 2) / 5 + d - 1
  let doe := yoe * 365 + yoe / 4 - yoe / 100 + doy
  era * 146097 + doe - 719468

/-- Embedding of `getDateKey`: the `'yyyy-MM-dd'` key of a date, as its civil triple. -/
def getDateKey (date : Int) : DateKey := civilFromDays date

inductive HolidayType where
  | regular
  | special
deriving DecidableEq, BEq

structure Holiday where
  date : DateKey
  name : String
  type : HolidayType
deriving DecidableEq, BEq

/-- Philippine 2026 Holidays (`PH_HOLIDAYS_2026`). -/
def PH_HOLIDAYS_2026 : List Holiday := [
  -- Regular Holidays
  ⟨⟨2026, 1, 1⟩, "New Year\x27s Day", .regular⟩,
  ⟨⟨2026, 4, 2⟩, "Maundy Thursday", .regular⟩,
  ⟨⟨2026, 4, 3⟩, "Good Friday", .regular⟩,
  ⟨⟨2026, 4, 9⟩, "Day of Valor (Araw ng Kagitingan)", .regular⟩,
  ⟨⟨2026, 5, 1⟩, "Labor Day", .regular⟩,
  ⟨⟨2026, 6, 12⟩, "Independence Day", .regular⟩,
  ⟨⟨2026, 8, 31⟩, "National Heroes Day", .regular⟩,
  ⟨⟨2026, 11, 30⟩, "Bonifacio Day", .regular⟩,
  ⟨⟨2026, 12, 25⟩, "Christmas Day", .regular⟩,
  ⟨⟨2026, 12, 30⟩, "Rizal Day", .regular⟩,
  -- Special Non-Working Holidays
  ⟨⟨2026, 2, 17⟩, "Chinese New Year", .special⟩,
  ⟨⟨2026, 4, 4⟩, "Black Saturday", .special⟩,
  ⟨⟨2026, 8, 21⟩, "Ninoy Aquino Day", .special⟩,
  ⟨⟨2026, 11, 1⟩, "All Saints\x27 Day", .special⟩,
  ⟨⟨2026, 11, 2⟩, "All Souls\x27 Day", .special⟩,
  ⟨⟨2026, 12, 8⟩, "Feast of the Immaculate Conception of Mary", .special⟩,
  ⟨⟨2026, 12, 24⟩, "Christmas Eve", .special⟩,
  ⟨⟨2026, 12, 31⟩, "Last Day of the Year", .special⟩
]

/-- Embedding of `isHoliday`: looks the date up in the holiday table; `some h` embeds the
`{ isHoliday: true, name, type }` result, `none` embeds `{ isHoliday: false }`. -/
def isHoliday (date : Int) : Option Holiday :=
  PH_HOLIDAYS_2026.find? (fun h => h.date == getDateKey date)

/-- Embedding of `calculateDayHours`: hours attributed to a single day.  Manual
adjustments take priority; then the holiday exclusion; then the weekly
pattern in automatic mode; manual mode without an override yields 0. -/
def calculateDayHours (date : Int) (adjustments : DayMap) (mode : PlanningMode)
    (excludedDays : List Int) (excludeHolidays : Bool) : Int :=
  let key := getDateKey date
  match adjustments key with
  | some adj =>
    -- Manual adjustments always take priority
    match adj.status with
    | .off => 0
    | .work => 8 + adj.overtime
  | none =>
    -- Check if it's a holiday and holidays are excluded
    if excludeHolidays && (isHoliday date).isSome then 0
    else
      match mode with
      | .automatic =>
        let dayOfWeek := getDay date
        -- If the specific day of week is excluded, return 0
        if excludedDays.contains dayOfWeek then 0
        else if isWeekend date then 0 else 8
      | .manual => 0

/-- A day contributing positive hours: one element of the `workDays` list. -/
structure WorkDay where
  date : Int
  hours : Int
deriving DecidableEq, BEq

/-- The mutable loop state of `getInternshipStats` that survives the loop:
`accumulated`, `estimatedEndDate`, `workDaysToGoal`, `workDays`, and the
final value of `daysProcessed` (the number of loop iterations executed). -/
structure LoopOut where
  accumulated : Int
  estimatedEndDate : Option Int
  workDaysToGoal : Nat
  workDays : List WorkDay
  daysProcessed : Nat
deriving DecidableEq

/-- The per-day update of the loop body of `getInternshipStats` (the
`if (hours > 0) { ... }` block): how one candidate day with resolved `hours`
updates `accumulated`, `workDays`, `estimatedEndDate` and `workDaysToGoal`. -/
structure StepOut where
  acc : Int
  wds : List WorkDay
  eed : Option Int
  wtg : Nat
deriving DecidableEq

def stepUpdate (goal : Int) (mode : PlanningMode) (checkDate : Int) (hours : Int)
    (acc : Int) (wds : List WorkDay) (eed : Option Int) (wtg : Nat) : StepOut :=
  if 0 < hours then
    match mode with
    | .manual =>
      -- In manual mode, always accumulate hours
      let acc' := acc + hours
      let wds' := wds ++ [⟨checkDate, hours⟩]
      let wtg' := if acc' ≤ goal then wtg + 1 else wtg
      let eed' := if goal ≤ acc' ∧ eed = none then some checkDate else eed
      ⟨acc', wds', eed', wtg'⟩
    | .automatic =>
      -- Auto mode - stop accumulating after goal
      if acc < goal then
        let acc' := acc + hours
        let wtg' := wtg + 1
        let eed' := if goal ≤ acc' ∧ eed = none then some checkDate else eed
        let wds' := if acc' ≤ goal then wds ++ [⟨checkDate, hours⟩] else wds
        ⟨acc', wds', eed', wtg'⟩
      else
        let wds' := if acc ≤ goal then wds ++ [⟨checkDate, hours⟩] else wds
        ⟨acc, wds', eed, wtg⟩
  else ⟨acc, wds, eed, wtg⟩

/-- The `while (daysProcessed < safetyLimit)` loop of `getInternshipStats`,
written with `fuel = safetyLimit - daysProcessed` as the structural
recursion measure.  Each iteration resolves the day's hours, applies
`stepUpdate`, then tests the two early-break conditions before stepping to
the next calendar day. -/
def statsLoop (goal : Int) (adjustments : DayMap) (mode : PlanningMode)
    (excludedDays : List Int) (excludeHolidays : Bool) :
    Nat → Int → Nat → Int → List WorkDay → Option Int → Nat → LoopOut
  | 0, _, dp, acc, wds, eed, wtg => ⟨acc, eed, wtg, wds, dp⟩
  | fuel + 1, checkDate, dp, acc, wds, eed, wtg =>
    let key := getDateKey checkDate
    let hasManual := (adjustments key).isSome
    let hours := calculateDayHours checkDate adjustments mode excludedDays excludeHolidays
    let s := stepUpdate goal mode checkDate hours acc wds eed wtg
    -- In manual mode, only stop if no more manual entries; in auto mode, stop after goal + buffer
    if mode = PlanningMode.automatic ∧ goal ≤ s.acc ∧ 730 < dp then
      ⟨s.acc, s.eed, s.wtg, s.wds, dp⟩
    -- In manual mode, stop if we've gone 365 days without any manual entries after hitting goal
    else if mode = PlanningMode.manual ∧ goal ≤ s.acc ∧ hasManual = false ∧ 365 < dp then
      ⟨s.acc, s.eed, s.wtg, s.wds, dp⟩
    else
      statsLoop goal adjustments mode excludedDays excludeHolidays
        fuel (checkDate + 1) (dp + 1) s.acc s.wds s.eed s.wtg

def safetyLimit : Nat := 3000

/-- The Stats record returned by `getInternshipStats`. -/
structure Stats where
  totalGoal : Int
  accumulatedTowardsGoal : Int
  remaining : Int
  progressPercentage : ℚ
  exceeded : Bool
  excessHours : Int
  estimatedEndDate : Option Int
  estimatedEndDateStr : String
  workDaysCount : Nat
  totalCalendarDays : Int
  workDays : List WorkDay
deriving DecidableEq

/-- Digits of a natural number, written with explicit fuel so it reduces in
the kernel. -/
def natToStrAux : Nat → Nat → String
  | 0, _ => ""
  | fuel + 1, n =>
    let digit := String.singleton (Char.ofNat (48 + n % 10))
    if n < 10 then digit else natToStrAux fuel (n / 10) ++ digit

def natToStr (n : Nat) : String := natToStrAux (n + 1) n

def intToStr (i : Int) : String :=
  if i < 0 then "-" ++ natToStr i.natAbs else natToStr i.natAbs

/-- date-fns `'MMMM'`: full English month name. -/
def monthName (m : Int) : String :=
  if m = 1 then "January" else if m = 2 then "February" else if m = 3 then "March"
  else if m = 4 then "April" else if m = 5 then "May" else if m = 6 then "June"
  else if m = 7 then "July" else if m = 8 then "August" else if m = 9 then "September"
  else if m = 10 then "October" else if m = 11 then "November" else if m = 12 then "December"
  else ""

/-- date-fns en-US ordinal suffix (used by the `'do'` token): `st`/`nd`/`rd`
for 1, 2, 3 outside the teens, otherwise `th`. -/
def ordinalSuffix (n : Int) : String :=
  let rem100 := n.emod 100
  if 20 < rem100 || rem100 < 10 then
    if n.emod 10 = 1 then "st"
    else if n.emod 10 = 2 then "nd"
    else if n.emod 10 = 3 then "rd"
    else "th"
  else "th"

/-- date-fns `format(date, 'MMMM do, yyyy')`, e.g. `"January 9th, 2026"`. -/
def formatLong (date : Int) : String :=
  let k := civilFromDays date
  monthName k.month ++ " " ++ intToStr k.day ++ ordinalSuffix k.day ++ ", " ++ intToStr k.year

/-- The early return of `getInternshipStats` when no valid start date is set.
The source object omits the `exceeded` / `excessHours` fields (they read as
JS `undefined`, which is falsy / non-numeric); they are embedded as
`false` / `0`. -/
def emptyStats (goal : Int) : Stats :=
  ⟨goal, 0, goal, 0, false, 0, none, "Set start date", 0, 0, []⟩

/-- The tail of `getInternshipStats`: packaging the loop output into Stats. -/
def statsFromLoop (goal : Int) (start : Int) (out : LoopOut) : Stats :=
  let progress : ℚ :=
    if 0 < goal then min 100 ((out.accumulated : ℚ) / (goal : ℚ) * 100) else 0
  let calDays : Int :=
    match out.estimatedEndDate with
    | some e => (e - start) + 1
    | none => 0
  let exceeded := decide (goal < out.accumulated)
  { totalGoal := goal
    accumulatedTowardsGoal := out.accumulated
    remaining := max 0 (goal - out.accumulated)
    progressPercentage := progress
    exceeded := exceeded
    excessHours := if goal < out.accumulated then out.accumulated - goal else 0
    estimatedEndDate := out.estimatedEndDate
    estimatedEndDateStr :=
      match out.estimatedEndDate with
      | some e => formatLong e
      | none => if 0 < goal then "Goal not reached" else "Set goal"
    workDaysCount := out.workDaysToGoal
    totalCalendarDays := calDays
    workDays := out.workDays }

/-- Embedding of `getInternshipStats`: the Schedule Accumulator plus Derived Statistics.
A missing or invalid start date is embedded as `none`. -/
def getInternshipStats (goal : Int) (startDate : Option Int) (adjustments : DayMap)
    (mode : PlanningMode) (excludedDays : List Int) (excludeHolidays : Bool) : Stats :=
  match startDate with
  | none => emptyStats goal
  | some start =>
    -- `startOfDay` is the identity on day numbers
    statsFromLoop goal start
      (statsLoop goal adjustments mode excludedDays excludeHolidays
        safetyLimit start 0 0 [] none 0)

/-- The everywhere-empty adjustments map. -/
def noAdjustments : DayMap := fun _ => none

/-- A one-entry adjustments map. -/
def singleAdjustment (k : DateKey) (adj : DayAdjustment) : DayMap :=
  fun key => if key = k then some adj else none

/-! ### Helper lemmas about the per-day update and the loop -/

/-- One day's update never decreases the accumulated total (hours are only
added in the `hours > 0` branch). -/
theorem stepUpdate_acc_le (goal : Int) (mode : PlanningMode) (cd hours acc : Int)
    (wds : List WorkDay) (eed : Option Int) (wtg : Nat) :
    acc ≤ (stepUpdate goal mode cd hours acc wds eed wtg).acc := by
  cases mode <;> simp only [stepUpdate] <;> split_ifs <;> simp <;> omega

/-- One day's update either keeps the projected end date or sets it to the
current day. -/
theorem stepUpdate_eed_cases (goal : Int) (mode : PlanningMode) (cd hours acc : Int)
    (wds : List WorkDay) (eed : Option Int) (wtg : Nat) :
    (stepUpdate goal mode cd hours acc wds eed wtg).eed = eed ∨
      (stepUpdate goal mode cd hours acc wds eed wtg).eed = some cd := by
  cases mode <;> simp only [stepUpdate] <;> split_ifs <;> simp

/-- The loop never drives the accumulated total below its initial value;
in particular, started from 0 it stays non-negative. -/
theorem statsLoop_acc_nonneg (goal : Int) (adjustments : DayMap) (mode : PlanningMode)
    (excl : List Int) (exh : Bool) :
    ∀ (fuel : Nat) (cd : Int) (dp : Nat) (acc : Int) (wds : List WorkDay)
      (eed : Option Int) (wtg : Nat), 0 ≤ acc →
      0 ≤ (statsLoop goal adjustments mode excl exh fuel cd dp acc wds eed wtg).accumulated := by
  intro fuel
  induction fuel with
  | zero => intro cd dp acc wds eed wtg h; simpa [statsLoop] using h
  | succ n ih =>
    intro cd dp acc wds eed wtg h
    have hstep := stepUpdate_acc_le goal mode cd
      (calculateDayHours cd adjustments mode excl exh) acc wds eed wtg
    simp only [statsLoop]
    split_ifs
    · exact le_trans h hstep
    · exact le_trans h hstep
    · exact ih _ _ _ _ _ _ (le_trans h hstep)

/-- Every projected end date produced by the loop is bounded below by any
lower bound of the current candidate day that also bounds the incoming
end-date candidate. -/
theorem statsLoop_eed_lb (goal : Int) (adjustments : DayMap) (mode : PlanningMode)
    (excl : List Int) (exh : Bool) :
    ∀ (fuel : Nat) (cd : Int) (dp : Nat) (acc : Int) (wds : List WorkDay)
      (eed : Option Int) (wtg : Nat) (c0 : Int), c0 ≤ cd →
      (∀ e, eed = some e → c0 ≤ e) →
      ∀ e, (statsLoop goal adjustments mode excl exh fuel cd dp acc wds eed wtg).estimatedEndDate
            = some e → c0 ≤ e := by
  intro fuel
  induction fuel with
  | zero => intro cd dp acc wds eed wtg c0 _ heed e h; exact heed e h
  | succ n ih =>
    intro cd dp acc wds eed wtg c0 hcd heed e
    have hcases := stepUpdate_eed_cases goal mode cd
      (calculateDayHours cd adjustments mode excl exh) acc wds eed wtg
    have hs : ∀ e, (stepUpdate goal mode cd
        (calculateDayHours cd adjustments mode excl exh) acc wds eed wtg).eed = some e →
        c0 ≤ e := by
      intro e he
      rcases hcases with hc | hc
      · exact heed e (hc ▸ he)
      · rw [hc] at he
        exact (Option.some_inj.mp he) ▸ hcd
    simp only [statsLoop]
    split_ifs
    · exact hs e
    · exact hs e
    · exact ih _ _ _ _ _ _ c0 (by omega) hs e

/-- The loop executes at most `fuel` further iterations: the final
`daysProcessed` is at most the incoming one plus the fuel. -/
theorem statsLoop_dp_le (goal : Int) (adjustments : DayMap) (mode : PlanningMode)
    (excl : List Int) (exh : Bool) :
    ∀ (fuel : Nat) (cd : Int) (dp : Nat) (acc : Int) (wds : List WorkDay)
      (eed : Option Int) (wtg : Nat),
      (statsLoop goal adjustments mode excl exh fuel cd dp acc wds eed wtg).daysProcessed
        ≤ dp + fuel := by
  intro fuel
  induction fuel with
  | zero => intro cd dp acc wds eed wtg; simp [statsLoop]
  | succ n ih =>
    intro cd dp acc wds eed wtg
    simp only [statsLoop]
    split_ifs
    · simp
    · simp
    · exact le_trans (ih _ _ _ _ _ _) (by omega)

/-- In automatic mode the loop either exhausts its fuel or breaks exactly at
an iteration where the goal has been reached and more than 730 days have
been processed (counted from the start of the iteration, i.e. the start
date). -/
theorem statsLoop_auto_cases (goal : Int) (adjustments : DayMap)
    (excl : List Int) (exh : Bool) :
    ∀ (fuel : Nat) (cd : Int) (dp : Nat) (acc : Int) (wds : List WorkDay)
      (eed : Option Int) (wtg : Nat),
      (statsLoop goal adjustments .automatic excl exh fuel cd dp acc wds eed wtg).daysProcessed
          = dp + fuel ∨
        (730 < (statsLoop goal adjustments .automatic excl exh
            fuel cd dp acc wds eed wtg).daysProcessed ∧
          goal ≤ (statsLoop goal adjustments .automatic excl exh
            fuel cd dp acc wds eed wtg).accumulated) := by
  intro fuel
  induction fuel with
  | zero => intro cd dp acc wds eed wtg; left; simp [statsLoop]
  | succ n ih =>
    intro cd dp acc wds eed wtg
    simp only [statsLoop]
    split_ifs with h1 h2
    · right
      exact ⟨h1.2.2, h1.2.1⟩
    · exact absurd h2.1 (by simp)
    · exact (ih (cd + 1) (dp + 1) _ _ _ _).imp (fun h => by omega) (fun h => h)

/-! ### Claim theorems -/

/-- C1: for every configuration (non-negative goal, non-negative overtimes),
the Stats returned by `getInternshipStats` has non-negative accumulated
hours, a progress percentage in [0,100], and a projected end date (when
present) on or after the start date. -/
theorem getInternshipStats_invariants
    (goal : Int) (startDate : Option Int) (adjustments : DayMap) (mode : PlanningMode)
    (excludedDays : List Int) (excludeHolidays : Bool)
    (hgoal : 0 ≤ goal)
    (_hov : ∀ k adj, adjustments k = some adj → 0 ≤ adj.overtime) :
    0 ≤ (getInternshipStats goal startDate adjustments mode excludedDays
          excludeHolidays).accumulatedTowardsGoal ∧
    0 ≤ (getInternshipStats goal startDate adjustments mode excludedDays
          excludeHolidays).progressPercentage ∧
    (getInternshipStats goal startDate adjustments mode excludedDays
          excludeHolidays).progressPercentage ≤ 100 ∧
    ((getInternshipStats goal startDate adjustments mode excludedDays
          excludeHolidays).estimatedEndDate.all
        (fun e => startDate.all (fun st => decide (st ≤ e))) = true) := by
  cases startDate with
  | none =>
    refine ⟨by simp [getInternshipStats, emptyStats], by simp [getInternshipStats, emptyStats],
      by simp [getInternshipStats, emptyStats], ?_⟩
    simp [getInternshipStats, emptyStats, Option.all]
  | some st =>
    have hacc : 0 ≤ (statsLoop goal adjustments mode excludedDays excludeHolidays
        safetyLimit st 0 0 [] none 0).accumulated :=
      statsLoop_acc_nonneg goal adjustments mode excludedDays excludeHolidays
        safetyLimit st 0 0 [] none 0 le_rfl
    refine ⟨?_, ?_, ?_, ?_⟩
    · simpa [getInternshipStats, statsFromLoop] using hacc
    · simp only [getInternshipStats, statsFromLoop]
      split_ifs with hg
      · refine le_min (by norm_num) ?_
        have h1 : (0 : ℚ) ≤ ((statsLoop goal adjustments mode excludedDays excludeHolidays
            safetyLimit st 0 0 [] none 0).accumulated : ℚ) := by exact_mod_cast hacc
        have h2 : (0 : ℚ) ≤ (goal : ℚ) := by exact_mod_cast hgoal
        positivity
      · exact le_rfl
    · simp only [getInternshipStats, statsFromLoop]
      split_ifs with hg
      · exact min_le_left _ _
      · norm_num
    · simp only [getInternshipStats, statsFromLoop]
      cases heed : (statsLoop goal adjustments mode excludedDays excludeHolidays
          safetyLimit st 0 0 [] none 0).estimatedEndDate with
      | none => simp [Option.all]
      | some e =>
        have hle : st ≤ e :=
          statsLoop_eed_lb goal adjustments mode excludedDays excludeHolidays
            safetyLimit st 0 0 [] none 0 st le_rfl (by intro e h; cases h) e heed
        simp [Option.all, hle]

/-- C1 witness: the invariants instantiated at a concrete configuration. -/
theorem getInternshipStats_invariants_witness :
    0 ≤ (getInternshipStats 0 none noAdjustments .automatic [] true).accumulatedTowardsGoal ∧
    0 ≤ (getInternshipStats 0 none noAdjustments .automatic [] true).progressPercentage ∧
    (getInternshipStats 0 none noAdjustments .automatic [] true).progressPercentage ≤ 100 ∧
    ((getInternshipStats 0 none noAdjustments .automatic [] true).estimatedEndDate.all
        (fun e => (none : Option Int).all (fun st => decide (st ≤ e))) = true) :=
  getInternshipStats_invariants 0 none noAdjustments .automatic [] true (by decide)
    (fun k adj h => absurd h (by simp [noAdjustments]))

/-- C2: a manual adjustment always takes priority: on a date with an entry
in the adjustments map, `calculateDayHours` ignores the mode, the excluded
weekdays and the holiday flag, returning 0 for `off` and `8 + overtime` for
`work` (hence at least 8 when overtime is non-negative). -/
theorem calculateDayHours_override
    (date : Int) (adjustments : DayMap) (mode : PlanningMode)
    (excludedDays : List Int) (excludeHolidays : Bool) (adj : DayAdjustment)
    (h : adjustments (getDateKey date) = some adj) :
    calculateDayHours date adjustments mode excludedDays excludeHolidays
        = (if adj.status = DayStatus.off then 0 else 8 + adj.overtime) ∧
    (adj.status = DayStatus.work → 0 ≤ adj.overtime →
      8 ≤ calculateDayHours date adjustments mode excludedDays excludeHolidays) := by
  constructor
  · simp only [calculateDayHours, h]
    cases adj.status <;> simp
  · intro hw hov
    simp only [calculateDayHours, h, hw]
    omega

/-- C2 witness: the override rule at a concrete date and map. -/
theorem calculateDayHours_override_witness :
    singleAdjustment ⟨2026, 2, 3⟩ ⟨.work, 2, ""⟩ (getDateKey (civilToDays 2026 2 3))
        = some ⟨.work, 2, ""⟩ ∧
    (calculateDayHours (civilToDays 2026 2 3) (singleAdjustment ⟨2026, 2, 3⟩ ⟨.work, 2, ""⟩)
        .manual [0, 6] true
        = (if (DayAdjustment.mk .work 2 "").status = DayStatus.off then 0
            else 8 + (DayAdjustment.mk .work 2 "").overtime) ∧
      ((DayAdjustment.mk .work 2 "").status = DayStatus.work →
        0 ≤ (DayAdjustment.mk .work 2 "").overtime →
        8 ≤ calculateDayHours (civilToDays 2026 2 3)
          (singleAdjustment ⟨2026, 2, 3⟩ ⟨.work, 2, ""⟩) .manual [0, 6] true)) :=
  ⟨by decide,
    calculateDayHours_override (civilToDays 2026 2 3)
      (singleAdjustment ⟨2026, 2, 3⟩ ⟨.work, 2, ""⟩) .manual [0, 6] true
      ⟨.work, 2, ""⟩ (by decide)⟩

/-- C3: on a date with no entry in the adjustments map: with the holiday
flag set, a listed holiday yields 0; otherwise automatic mode yields 0 for
an excluded weekday, 8 for a non-excluded Monday–Friday, 0 for a
non-excluded weekend day, and manual mode yields 0. -/
theorem calculateDayHours_no_override
    (date : Int) (adjustments : DayMap) (mode : PlanningMode)
    (excludedDays : List Int) (excludeHolidays : Bool)
    (h : adjustments (getDateKey date) = none) :
    (excludeHolidays = true → (isHoliday date).isSome = true →
      calculateDayHours date adjustments mode excludedDays excludeHolidays = 0) ∧
    (¬(excludeHolidays = true ∧ (isHoliday date).isSome = true) →
      (mode = PlanningMode.manual →
        calculateDayHours date adjustments mode excludedDays excludeHolidays = 0) ∧
      (mode = PlanningMode.automatic →
        (excludedDays.contains (getDay date) = true →
          calculateDayHours date adjustments mode excludedDays excludeHolidays = 0) ∧
        (excludedDays.contains (getDay date) = false → 1 ≤ getDay date → getDay date ≤ 5 →
          calculateDayHours date adjustments mode excludedDays excludeHolidays = 8) ∧
        (excludedDays.contains (getDay date) = false → (getDay date = 0 ∨ getDay date = 6) →
          calculateDayHours date adjustments mode excludedDays excludeHolidays = 0))) := by
  constructor
  · intro hx hh
    simp [calculateDayHours, h, hx, hh]
  · intro hnot
    have hcond : (excludeHolidays && (isHoliday date).isSome) = false := by
      by_cases hx : excludeHolidays = true
      · by_cases hh : (isHoliday date).isSome = true
        · exact absurd ⟨hx, hh⟩ hnot
        · rw [Bool.not_eq_true] at hh
          simp [hh]
      · rw [Bool.not_eq_true] at hx
        simp [hx]
    constructor
    · intro hm
      simp [calculateDayHours, h, hcond, hm]
    · intro hm
      refine ⟨?_, ?_, ?_⟩
      · intro hexcl
        have hmem : getDay date ∈ excludedDays := by simpa using hexcl
        simp [calculateDayHours, h, hcond, hm, hmem]
      · intro hexcl h1 h5
        have hmem : getDay date ∉ excludedDays := by simpa using hexcl
        have hwk : isWeekend date = false := by
          simp only [isWeekend, Bool.or_eq_false_iff, beq_eq_false_iff_ne, ne_eq]
          omega
        simp [calculateDayHours, h, hcond, hm, hmem, hwk]
      · intro hexcl hwke
        have hmem : getDay date ∉ excludedDays := by simpa using hexcl
        have hwk : isWeekend date = true := by
          simp only [isWeekend, Bool.or_eq_true, beq_iff_eq]
          omega
        simp [calculateDayHours, h, hcond, hm, hmem, hwk]

/-- C3 witness: the no-override rules at 2026-01-05 (a Monday). -/
theorem calculateDayHours_no_override_witness :
    noAdjustments (getDateKey (civilToDays 2026 1 5)) = none ∧
    ((true = true → (isHoliday (civilToDays 2026 1 5)).isSome = true →
      calculateDayHours (civilToDays 2026 1 5) noAdjustments .automatic [0, 6] true = 0) ∧
    (¬(true = true ∧ (isHoliday (civilToDays 2026 1 5)).isSome = true) →
      (PlanningMode.automatic = PlanningMode.manual →
        calculateDayHours (civilToDays 2026 1 5) noAdjustments .automatic [0, 6] true = 0) ∧
      (PlanningMode.automatic = PlanningMode.automatic →
        (List.contains [0, 6] (getDay (civilToDays 2026 1 5)) = true →
          calculateDayHours (civilToDays 2026 1 5) noAdjustments .automatic [0, 6] true = 0) ∧
        (List.contains [0, 6] (getDay (civilToDays 2026 1 5)) = false →
          1 ≤ getDay (civilToDays 2026 1 5) → getDay (civilToDays 2026 1 5) ≤ 5 →
          calculateDayHours (civilToDays 2026 1 5) noAdjustments .automatic [0, 6] true = 8) ∧
        (List.contains [0, 6] (getDay (civilToDays 2026 1 5)) = false →
          (getDay (civilToDays 2026 1 5) = 0 ∨ getDay (civilToDays 2026 1 5) = 6) →
          calculateDayHours (civilToDays 2026 1 5) noAdjustments .automatic [0, 6] true = 0)))) :=
  ⟨rfl, calculateDayHours_no_override (civilToDays 2026 1 5) noAdjustments .automatic
    [0, 6] true rfl⟩

/-- C6 counterexample: with goal 40 and no start date the returned Stats has
`remaining = 40` (and `totalGoal = 40`), so not every numeric field is
zero. -/
theorem noStart_remaining_eq_goal :
    (getInternshipStats 40 none noAdjustments .automatic [0, 6] true).remaining = 40 ∧
    (40 : Int) ≠ 0 := by
  constructor
  · rfl
  · decide

/-- C6 (amended): with no (valid) start date, `getInternshipStats`
short-circuits to the explicit empty Stats: accumulated 0, progress 0,
no end date (sentinel string "Set start date"), zero counts, empty
work-day list — while `totalGoal` and `remaining` both echo the goal. -/
theorem getInternshipStats_noStart (goal : Int) (adjustments : DayMap)
    (mode : PlanningMode) (excludedDays : List Int) (excludeHolidays : Bool) :
    getInternshipStats goal none adjustments mode excludedDays excludeHolidays
      = ⟨goal, 0, goal, 0, false, 0, none, "Set start date", 0, 0, []⟩ :=
  rfl

/-- C7 counterexample: with the negative goal −1 (so goal ≤ 0) and no start
date, the returned Stats has `remaining = −1 ≠ 0`. -/
theorem negGoal_noStart_remaining_ne_zero :
    (-1 : Int) ≤ 0 ∧
    (getInternshipStats (-1) none noAdjustments .automatic [] true).remaining ≠ 0 := by
  constructor
  · decide
  · show (-1 : Int) ≠ 0
    decide

/-- C7 (amended): with goal ≤ 0 the progress percentage is 0; and the
remaining hours are 0 whenever a start date is present, or whenever the
goal is exactly 0 (with a negative goal and no start date, `remaining`
echoes the negative goal instead). -/
theorem nonpositive_goal_progress_remaining
    (goal : Int) (startDate : Option Int) (adjustments : DayMap) (mode : PlanningMode)
    (excludedDays : List Int) (excludeHolidays : Bool)
    (hgoal : goal ≤ 0) :
    (getInternshipStats goal startDate adjustments mode excludedDays
        excludeHolidays).progressPercentage = 0 ∧
    (startDate.isSome = true →
      (getInternshipStats goal startDate adjustments mode excludedDays
        excludeHolidays).remaining = 0) ∧
    (goal = 0 →
      (getInternshipStats goal startDate adjustments mode excludedDays
        excludeHolidays).remaining = 0) := by
  cases startDate with
  | none =>
    refine ⟨rfl, by simp, ?_⟩
    intro h0
    simp [getInternshipStats, emptyStats, h0]
  | some st =>
    have hacc : 0 ≤ (statsLoop goal adjustments mode excludedDays excludeHolidays
        safetyLimit st 0 0 [] none 0).accumulated :=
      statsLoop_acc_nonneg goal adjustments mode excludedDays excludeHolidays
        safetyLimit st 0 0 [] none 0 le_rfl
    have hng : ¬(0 < goal) := by omega
    refine ⟨?_, ?_, ?_⟩
    · simp [getInternshipStats, statsFromLoop, hng]
    · intro _
      simp only [getInternshipStats, statsFromLoop]
      omega
    · intro _
      simp only [getInternshipStats, statsFromLoop]
      omega

/-- C7 witness: the amended statement at goal 0 with a present start date. -/
theorem nonpositive_goal_progress_remaining_witness :
    (getInternshipStats 0 (some (civilToDays 2026 1 5)) noAdjustments .manual []
        true).progressPercentage = 0 ∧
    ((some (civilToDays 2026 1 5)).isSome = true →
      (getInternshipStats 0 (some (civilToDays 2026 1 5)) noAdjustments .manual []
        true).remaining = 0) ∧
    ((0 : Int) = 0 →
      (getInternshipStats 0 (some (civilToDays 2026 1 5)) noAdjustments .manual []
        true).remaining = 0) :=
  nonpositive_goal_progress_remaining 0 (some (civilToDays 2026 1 5)) noAdjustments
    .manual [] true (by decide)

/-- C8: the accumulator loop always terminates within the hard safety
ceiling: starting from `daysProcessed = 0` with the code's fuel of
`safetyLimit = 3000` days (≈ 8.2 years), the number of iterations executed
never exceeds 3000, for every input. -/
theorem statsLoop_iterations_bounded
    (goal : Int) (adjustments : DayMap) (mode : PlanningMode)
    (excludedDays : List Int) (excludeHolidays : Bool) (start : Int) :
    (statsLoop goal adjustments mode excludedDays excludeHolidays
        safetyLimit start 0 0 [] none 0).daysProcessed ≤ 3000 ∧
    safetyLimit = 3000 := by
  constructor
  · simpa using statsLoop_dp_le goal adjustments mode excludedDays excludeHolidays
      safetyLimit start 0 0 [] none 0
  · rfl

/-- C9 (amended): in automatic mode the loop's early break fires at the
first iteration at which the goal has been reached AND more than 730 days
(≈ 2 years) have been processed, both counted from the START date — not
from the goal-crossing day.  Consequently a full run always executes at
least 731 iterations, and whenever it stops before exhausting the 3000-day
ceiling, the goal has been reached and more than 730 days from start have
elapsed. -/
theorem statsLoop_auto_exit (goal : Int) (adjustments : DayMap)
    (excludedDays : List Int) (excludeHolidays : Bool) (start : Int) :
    731 ≤ (statsLoop goal adjustments .automatic excludedDays excludeHolidays
        safetyLimit start 0 0 [] none 0).daysProcessed ∧
    ((statsLoop goal adjustments .automatic excludedDays excludeHolidays
        safetyLimit start 0 0 [] none 0).daysProcessed < 3000 →
      730 < (statsLoop goal adjustments .automatic excludedDays excludeHolidays
          safetyLimit start 0 0 [] none 0).daysProcessed ∧
        goal ≤ (statsLoop goal adjustments .automatic excludedDays excludeHolidays
          safetyLimit start 0 0 [] none 0).accumulated) := by
  rcases statsLoop_auto_cases goal adjustments excludedDays excludeHolidays
    safetyLimit start 0 0 [] none 0 with hc | hc
  · rw [show (0 : Nat) + safetyLimit = 3000 from rfl] at hc
    exact ⟨by omega, fun hlt => absurd hc (by omega)⟩
  · exact ⟨by omega, fun _ => hc⟩

/-- C9 amended-claim witness: the automatic-mode exit facts at a concrete
configuration (every weekday excluded, goal 0). -/
theorem statsLoop_auto_exit_witness :
    731 ≤ (statsLoop 0 noAdjustments .automatic [0, 1, 2, 3, 4, 5, 6] false
        safetyLimit 0 0 0 [] none 0).daysProcessed ∧
    ((statsLoop 0 noAdjustments .automatic [0, 1, 2, 3, 4, 5, 6] false
        safetyLimit 0 0 0 [] none 0).daysProcessed < 3000 →
      730 < (statsLoop 0 noAdjustments .automatic [0, 1, 2, 3, 4, 5, 6] false
          safetyLimit 0 0 0 [] none 0).daysProcessed ∧
        (0 : Int) ≤ (statsLoop 0 noAdjustments .automatic [0, 1, 2, 3, 4, 5, 6] false
          safetyLimit 0 0 0 [] none 0).accumulated) :=
  statsLoop_auto_exit 0 noAdjustments [0, 1, 2, 3, 4, 5, 6] false 0

set_option maxRecDepth 1000000
set_option maxHeartbeats 2000000

/-- C4: goal 40, start 2026-01-05 (Monday), automatic mode, weekends
excluded, holidays excluded: 8 hours accrue per weekday, the goal is
reached on Friday 2026-01-09, and the Stats reports
`estimatedEndDateStr = "January 9th, 2026"`, `workDaysCount = 5`,
`totalCalendarDays = 5`. -/
theorem getInternshipStats_auto_scenario :
    (getInternshipStats 40 (some (civilToDays 2026 1 5)) noAdjustments .automatic
        [0, 6] true).estimatedEndDateStr = "January 9th, 2026" ∧
    (getInternshipStats 40 (some (civilToDays 2026 1 5)) noAdjustments .automatic
        [0, 6] true).workDaysCount = 5 ∧
    (getInternshipStats 40 (some (civilToDays 2026 1 5)) noAdjustments .automatic
        [0, 6] true).totalCalendarDays = 5 ∧
    (getInternshipStats 40 (some (civilToDays 2026 1 5)) noAdjustments .automatic
        [0, 6] true).estimatedEndDate = some (civilToDays 2026 1 9) ∧
    (getInternshipStats 40 (some (civilToDays 2026 1 5)) noAdjustments .automatic
        [0, 6] true).accumulatedTowardsGoal = 40 :=
  ⟨rfl, rfl, rfl, rfl, rfl⟩

/-- C5: in manual mode every day with positive resolved hours adds them in
full and is appended to the work-day list (the per-day update); and the
concrete scenario goal 8, start 2026-02-01, single `work` override with
overtime 2 on 2026-02-03 yields accumulated 10, exceeded, excess 2, and a
work-day list with exactly the one entry (2026-02-03, 10 hours). -/
theorem manual_mode_accrual :
    (∀ (goal cd hours acc : Int) (wds : List WorkDay) (eed : Option Int) (wtg : Nat),
      0 < hours →
        (stepUpdate goal .manual cd hours acc wds eed wtg).acc = acc + hours ∧
        (stepUpdate goal .manual cd hours acc wds eed wtg).wds = wds ++ [⟨cd, hours⟩]) ∧
    (getInternshipStats 8 (some (civilToDays 2026 2 1))
        (singleAdjustment ⟨2026, 2, 3⟩ ⟨.work, 2, ""⟩) .manual [0, 6]
        true).accumulatedTowardsGoal = 10 ∧
    (getInternshipStats 8 (some (civilToDays 2026 2 1))
        (singleAdjustment ⟨2026, 2, 3⟩ ⟨.work, 2, ""⟩) .manual [0, 6]
        true).exceeded = true ∧
    (getInternshipStats 8 (some (civilToDays 2026 2 1))
        (singleAdjustment ⟨2026, 2, 3⟩ ⟨.work, 2, ""⟩) .manual [0, 6]
        true).excessHours = 2 ∧
    (getInternshipStats 8 (some (civilToDays 2026 2 1))
        (singleAdjustment ⟨2026, 2, 3⟩ ⟨.work, 2, ""⟩) .manual [0, 6]
        true).workDays = [⟨civilToDays 2026 2 3, 10⟩] := by
  refine ⟨?_, rfl, rfl, rfl, rfl⟩
  intro goal cd hours acc wds eed wtg hpos
  simp [stepUpdate, hpos]

/-- C5 witness: the manual-mode per-day update at concrete values. -/
theorem manual_mode_accrual_witness :
    0 < (10 : Int) ∧
    ((stepUpdate 8 .manual 0 10 0 [] none 0).acc = 0 + 10 ∧
      (stepUpdate 8 .manual 0 10 0 [] none 0).wds = [] ++ [⟨0, 10⟩]) :=
  ⟨by decide, manual_mode_accrual.1 8 0 10 0 [] none 0 (by decide)⟩

/-- C9 counterexample: with a single `work` override 800 days after the
start and every weekday excluded, the goal is crossed at iteration 800 and
the automatic-mode loop stops at that very iteration (`daysProcessed`
stays 800) — zero iterations past the goal-crossing day, not a ~2-year
grace window counted from the crossing. -/
theorem late_crossing_stops_immediately :
    (statsLoop 8 (singleAdjustment (getDateKey (civilToDays 2026 1 5 + 800)) ⟨.work, 0, ""⟩)
        .automatic [0, 1, 2, 3, 4, 5, 6] false safetyLimit
        (civilToDays 2026 1 5) 0 0 [] none 0).estimatedEndDate
      = some (civilToDays 2026 1 5 + 800) ∧
    (statsLoop 8 (singleAdjustment (getDateKey (civilToDays 2026 1 5 + 800)) ⟨.work, 0, ""⟩)
        .automatic [0, 1, 2, 3, 4, 5, 6] false safetyLimit
        (civilToDays 2026 1 5) 0 0 [] none 0).daysProcessed = 800 :=
  ⟨rfl, rfl⟩

/-- C10: in automatic mode, a day whose hours push the accumulated total
strictly above the goal increments `workDaysToGoal` but is not appended to
the work-day list; concretely, with goal 4 the first weekday contributes 8
hours and the Stats has `workDaysCount = 1` while `workDays` is empty, so
`workDaysCount` exceeds the list's length by one. -/
theorem auto_crossing_day_counted_not_recorded :
    (∀ (goal cd hours acc : Int) (wds : List WorkDay) (eed : Option Int) (wtg : Nat),
      acc < goal → goal < acc + hours →
        (stepUpdate goal .automatic cd hours acc wds eed wtg).wtg = wtg + 1 ∧
        (stepUpdate goal .automatic cd hours acc wds eed wtg).wds = wds) ∧
    (getInternshipStats 4 (some (civilToDays 2026 1 5)) noAdjustments .automatic
        [0, 6] true).workDaysCount
      = (getInternshipStats 4 (some (civilToDays 2026 1 5)) noAdjustments .automatic
          [0, 6] true).workDays.length + 1 := by
  constructor
  · intro goal cd hours acc wds eed wtg hlt hover
    have hpos : 0 < hours := by omega
    have hnle : ¬(acc + hours ≤ goal) := by omega
    simp [stepUpdate, hpos, hlt, hnle]
  · rfl

/-- C10 witness: the crossing-day update at concrete values (goal 4,
8 hours on the first day). -/
theorem auto_crossing_day_counted_not_recorded_witness :
    (0 : Int) < 4 ∧ (4 : Int) < 0 + 8 ∧
    ((stepUpdate 4 .automatic 0 8 0 [] none 0).wtg = 0 + 1 ∧
      (stepUpdate 4 .automatic 0 8 0 [] none 0).wds = []) :=
  ⟨by decide, by decide,
    auto_crossing_day_counted_not_recorded.1 4 0 8 0 [] none 0 (by decide) (by decide)⟩

end InternshipTracker
